import Mathlib

/-!
Shallow embedding of `examples/peerconnection/client/peer_connection_client.cc`
(the signaling client of the peerconnection example).  C++ `std::string` byte
buffers are modelled as `List Char`; the event-driven socket callbacks are
modelled as pure functions from a `Client` state (plus the bytes delivered by
the socket) to a new state and a list of emitted events (observer callbacks,
socket connect initiations, scheduled timer tasks).  `RTC_DCHECK` is a
debug-only assertion and has no effect in release builds, so the embedding
follows the release-mode control flow.
-/

namespace PCC

abbrev Str := List Char

/-! ## C / C++ string primitives -/

/-- `std::string::find(pat)`: index of the first occurrence of `pat`, if any.
An empty pattern is found at index 0. -/
def findSub (pat : Str) : Str → Option Nat
  | [] => if pat = [] then some 0 else none
  | c :: rest =>
    if pat.isPrefixOf (c :: rest) then some 0
    else (findSub pat rest).map (· + 1)

/-- `std::string::find(pat, start)`. -/
def findSubFrom (pat : Str) (s : Str) (start : Nat) : Option Nat :=
  (findSub pat (s.drop start)).map (start + ·)

/-- `std::string::find(ch)`. -/
def findChar (c : Char) (s : Str) : Option Nat :=
  List.findIdx? (fun x => x = c) s

/-- `std::string::find(ch, start)`. -/
def findCharFrom (c : Char) (s : Str) (start : Nat) : Option Nat :=
  (List.findIdx? (fun x => x = c) (s.drop start)).map (start + ·)

/-- The whitespace test of C `isspace` in the default locale. -/
def isSpaceC (ch : Char) : Bool :=
  ch = ' ' || ch = '\t' || ch = '\n' || ch = '\x0b' || ch = '\x0c' || ch = '\r'

/-- Leading-whitespace skipping performed by C `atoi`. -/
def skipWs : Str → Str
  | [] => []
  | c :: rest => if isSpaceC c then skipWs rest else c :: rest

/-- The digit-accumulation loop of C `atoi`: consume decimal digits, stop at
the first non-digit. -/
def atoiLoop : Str → Nat → Nat
  | [], acc => acc
  | c :: rest, acc => if c.isDigit then atoiLoop rest (acc * 10 + (c.toNat - 48)) else acc

/-- C `atoi`: skip whitespace, optional single sign, then decimal digits;
returns 0 when no digits are present. -/
def atoi (s : Str) : Int :=
  match skipWs s with
  | [] => 0
  | c :: rest =>
    if c = '-' then -(atoiLoop rest 0 : Int)
    else if c = '+' then (atoiLoop rest 0 : Int)
    else (atoiLoop (c :: rest) 0 : Int)

/-- `2 ^ 64`, the modulus of `size_t` arithmetic. -/
def sizeTMod : Nat := 2 ^ 64

/-- Conversion of a C `int` value to `size_t` (two's-complement wraparound
modulo `2 ^ 64`). -/
def toSizeT (v : Int) : Nat := (v % (Int.ofNat sizeTMod)).toNat

/-- `static_cast<int>` applied to a `size_t` value (two's-complement
truncation to 32 bits). -/
def intOfSizeT (n : Nat) : Int :=
  let m : Nat := n % 2 ^ 32
  if m < 2 ^ 31 then (m : Int) else (m : Int) - 2 ^ 32

/-- Decimal rendering of a natural number (the digits `snprintf` produces
for `%i` / `%zu` arguments). -/
def natToStrAux : Nat → Nat → Str
  | 0, _ => []
  | fuel + 1, n => if n = 0 then [] else natToStrAux fuel (n / 10) ++ [Char.ofNat (48 + n % 10)]

def natToStr (n : Nat) : Str :=
  if n = 0 then "0".toList else natToStrAux (n + 1) n

/-- Decimal rendering of a (possibly negative) `int` for `%i`. -/
def intToStr (i : Int) : Str :=
  if i < 0 then '-' :: natToStr i.natAbs else natToStr i.toNat

/-- `snprintf` into a 1024-byte stack buffer keeps at most 1023 characters. -/
def snprintfCap (s : Str) : Str := s.take 1023

/-! ## Protocol constants (peer_connection_client.cc, anonymous namespace) -/

/-- `kByeMessage`: the reserved 3-byte hang-up token. -/
def kByeMessage : Str := "BYE".toList

/-- `kReconnectDelay`: delay between server connection retries
(`webrtc::TimeDelta::Seconds(2)`), in milliseconds. -/
def kReconnectDelayMs : Nat := 2000

/-- `ECONNREFUSED` on Linux. -/
def econnrefused : Int := 111

/-- Modelled from the spec: `kDefaultServerPort` lives in
`examples/peerconnection/client/defaults.h`, which is not among the provided
sources; the spec says a non-positive port is replaced by the compile-time
default server port.  The concrete value is irrelevant to the claims. -/
def kDefaultServerPort : Int := 8888

def headerEndPat : Str := "\r\n\r\n".toList
def contentLengthPat : Str := "\r\nContent-Length: ".toList
def pragmaPat : Str := "\r\nPragma: ".toList
def connectionPat : Str := "\r\nConnection: ".toList
def closeWord : Str := "close".toList
def crlf : Str := "\r\n".toList
def lf : Char := '\n'
def commaCh : Char := ','

/-! ## Request builders (the `snprintf` format strings of the source) -/

/-- `GET /sign_in?<name> HTTP/1.0\r\n\r\n` (DoConnect). -/
def signInRequest (clientName : Str) : Str :=
  snprintfCap ("GET /sign_in?".toList ++ clientName ++ " HTTP/1.0\r\n\r\n".toList)

/-- `GET /sign_out?peer_id=<id> HTTP/1.0\r\n\r\n` (SignOut). -/
def signOutRequest (myId : Int) : Str :=
  snprintfCap ("GET /sign_out?peer_id=".toList ++ intToStr myId ++ " HTTP/1.0\r\n\r\n".toList)

/-- `GET /wait?peer_id=<id> HTTP/1.0\r\n\r\n` (OnHangingGetConnect). -/
def waitRequest (myId : Int) : Str :=
  snprintfCap ("GET /wait?peer_id=".toList ++ intToStr myId ++ " HTTP/1.0\r\n\r\n".toList)

/-- The `POST /message?...` headers plus body built by SendToPeer. -/
def messageRequest (myId toId : Int) (message : Str) : Str :=
  snprintfCap ("POST /message?peer_id=".toList ++ intToStr myId ++ "&to=".toList
      ++ intToStr toId ++ " HTTP/1.0\r\n".toList
      ++ "Content-Length: ".toList ++ natToStr message.length ++ "\r\n".toList
      ++ "Content-Type: text/plain\r\n".toList
      ++ "\r\n".toList)
    ++ message

/-! ## Client state -/

/-- `PeerConnectionClient::State`. -/
inductive ConnState where
  | NOT_CONNECTED
  | RESOLVING
  | SIGNING_IN
  | CONNECTED
  | SIGNING_OUT_WAITING
  | SIGNING_OUT
deriving DecidableEq

/-- The `rtc::Socket::ConnState` values the client inspects. -/
inductive SockState where
  | CS_CLOSED
  | CS_CONNECTING
  | CS_CONNECTED
deriving DecidableEq

/-- The two sockets owned by the client. -/
inductive SockId where
  | control
  | hanging
deriving DecidableEq

/-- Outward-visible actions: observer callbacks, socket connect initiations,
socket writes, and deferred-task scheduling. -/
inductive Ev where
  | OnServerConnectionFailure
  | OnSignedIn
  | OnPeerConnected (id : Int) (name : Str)
  | OnPeerDisconnected (id : Int)
  | OnMessageFromPeer (id : Int) (message : Str)
  | OnMessageSent (err : Int)
  | OnDisconnected
  | ConnectStart (sock : SockId)
  | Sent (sock : SockId) (bytes : Str)
  | ScheduleRetry (delayMs : Nat)
deriving DecidableEq

/-- The member state of `PeerConnectionClient`. -/
structure Client where
  state : ConnState
  my_id : Int
  peers : List (Int × Str)
  onconnect_data : Str
  control_data : Str
  notification_data : Str
  control_sock : SockState
  hanging_sock : SockState
  resolver : Bool
  server_host : Str
  server_port : Int
  client_name : Str
deriving DecidableEq

/-- The constructor state: `state_(NOT_CONNECTED), my_id_(-1)`, nothing
buffered, no sockets, no resolver. -/
def initClient : Client :=
  { state := ConnState.NOT_CONNECTED, my_id := -1, peers := [], onconnect_data := []
    control_data := [], notification_data := [], control_sock := SockState.CS_CLOSED
    hanging_sock := SockState.CS_CLOSED, resolver := false, server_host := []
    server_port := 0, client_name := [] }

/-! ## The peer directory (`std::map<int, std::string> peers_`) -/

def peersLookup (id : Int) : List (Int × Str) → Option Str
  | [] => none
  | (k, v) :: rest => if k = id then some v else peersLookup id rest

/-- `peers_[id] = name` (insert or overwrite). -/
def peersInsert (id : Int) (name : Str) : List (Int × Str) → List (Int × Str)
  | [] => [(id, name)]
  | (k, v) :: rest => if k = id then (id, name) :: rest else (k, v) :: peersInsert id name rest

/-- `peers_.erase(id)`. -/
def peersErase (id : Int) : List (Int × Str) → List (Int × Str)
  | [] => []
  | (k, v) :: rest => if k = id then rest else (k, v) :: peersErase id rest

/-! ## Per-socket field access helpers -/

def bufferOf (st : Client) : SockId → Str
  | .control => st.control_data
  | .hanging => st.notification_data

def setBuffer (st : Client) : SockId → Str → Client
  | .control, b => { st with control_data := b }
  | .hanging, b => { st with notification_data := b }

def sockOf (st : Client) : SockId → SockState
  | .control => st.control_sock
  | .hanging => st.hanging_sock

def setSock (st : Client) : SockId → SockState → Client
  | .control, s => { st with control_sock := s }
  | .hanging, s => { st with hanging_sock := s }

/-! ## Header extraction (`PeerConnectionClient::GetHeaderValue`, both
overloads) -/

/-- `GetHeaderValue(data, eoh, pattern, size_t* value)`: find the pattern, and
if its first occurrence starts before the end of the headers, `atoi` the text
following it into a `size_t`. -/
def GetHeaderValueNat (data : Str) (eoh : Nat) (pattern : Str) : Option Nat :=
  match findSub pattern data with
  | some found =>
    if found < eoh then some (toSizeT (atoi (data.drop (found + pattern.length)))) else none
  | none => none

/-- `GetHeaderValue(data, eoh, pattern, std::string* value)`: the value runs
from the end of the pattern to the next CRLF (or to `eoh` if none). -/
def GetHeaderValueStr (data : Str) (eoh : Nat) (pattern : Str) : Option Str :=
  match findSub pattern data with
  | some found =>
    if found < eoh then
      let b := found + pattern.length
      let e := match findSubFrom crlf data b with
        | some e => e
        | none => eoh
      some ((data.drop b).take (e - b))
    else none
  | none => none

/-! ## The HTTP framer (`PeerConnectionClient::ReadIntoBuffer`) -/

structure FrameResult where
  complete : Bool
  contentLength : Nat
  connClose : Bool
deriving DecidableEq

/-- The framing decision of `ReadIntoBuffer` on the accumulated buffer:
locate `\r\n\r\n`, extract `Content-Length`, and report the response complete
when `data.length >= (eoh + 4) + content_length` (a `size_t` sum, hence
taken modulo `2 ^ 64`).  Also reports whether a `Connection: close` header
was seen on a complete response. -/
def HttpFrame (data : Str) : FrameResult :=
  match findSub headerEndPat data with
  | none => ⟨false, 0, false⟩
  | some i =>
    match GetHeaderValueNat data i contentLengthPat with
    | none => ⟨false, 0, false⟩
    | some cl =>
      if (i + 4 + cl) % sizeTMod ≤ data.length then
        ⟨true, cl,
          match GetHeaderValueStr data i connectionPat with
          | some v => v = closeWord
          | none => false⟩
      else ⟨false, cl, false⟩

/-! ## Close / OnClose -/

/-- `PeerConnectionClient::Close()`: close both sockets, clear the pending
outbound buffer and the peer directory, drop the resolver, reset the id and
the state.  (The two receive buffers `control_data_` / `notification_data_`
are not touched by the source.) -/
def Close (st : Client) : Client :=
  { st with
    control_sock := SockState.CS_CLOSED
    hanging_sock := SockState.CS_CLOSED
    onconnect_data := []
    peers := []
    resolver := false
    my_id := -1
    state := ConnState.NOT_CONNECTED }

/-- `PeerConnectionClient::OnClose(socket, err)`. -/
def OnClose (st : Client) (sock : SockId) (err : Int) : Client × List Ev :=
  let st := setSock st sock .CS_CLOSED
  if err ≠ econnrefused then
    match sock with
    | .hanging =>
      if st.state = ConnState.CONNECTED then
        ({ st with hanging_sock := SockState.CS_CONNECTING }, [Ev.ConnectStart .hanging])
      else (st, [])
    | .control => (st, [Ev.OnMessageSent err])
  else
    match sock with
    | .control => (st, [Ev.ScheduleRetry kReconnectDelayMs])
    | .hanging => (Close st, [Ev.OnDisconnected])

/-- `ReadIntoBuffer(socket, data, content_length)` as invoked from the two
read handlers: the `Recv` loop appends the delivered bytes to the socket's
receive buffer and never discards any; then the framing decision is made, and
on a complete response carrying `Connection: close` the socket is closed and
`OnClose(socket, 0)` invoked inline. -/
def ReadIntoBuffer (sock : SockId) (st : Client) (incoming : Str) : Client × FrameResult × List Ev :=
  let buf := bufferOf st sock ++ incoming
  let st := setBuffer st sock buf
  let fr := HttpFrame buf
  if fr.complete && fr.connClose then
    let st := setSock st sock .CS_CLOSED
    let (st, evs) := OnClose st sock 0
    (st, fr, evs)
  else (st, fr, [])

/-! ## Response parsing -/

/-- `PeerConnectionClient::GetResponseStatus`: the integer after the first
space of the status line, `-1` when there is no space. -/
def GetResponseStatus (response : Str) : Int :=
  match findChar ' ' response with
  | none => -1
  | some pos => atoi (response.drop (pos + 1))

/-- `PeerConnectionClient::ParseServerResponse`: a non-200 status closes
everything and notifies disconnection; otherwise the end-of-headers index and
the `Pragma` peer id (a `size_t`, defaulting to `(size_t)-1`) are produced. -/
def ParseServerResponse (st : Client) (response : Str) :
    Client × List Ev × Option (Nat × Nat) :=
  if GetResponseStatus response ≠ 200 then (Close st, [Ev.OnDisconnected], none)
  else
    match findSub headerEndPat response with
    | none => (st, [], none)
    | some eoh =>
      let peerId : Nat :=
        match GetHeaderValueNat response eoh pragmaPat with
        | some v => v
        | none => toSizeT (-1)
      (st, [], some (peerId, eoh))

/-- `PeerConnectionClient::ParseEntry`: split `name,id,connected` at the
commas; succeeds iff the name (the text before the first comma) is
non-empty. -/
def ParseEntry (entry : Str) : Option (Str × Int × Bool) :=
  match findChar commaCh entry with
  | none => none
  | some sep =>
    let id := atoi (entry.drop (sep + 1))
    let name := entry.take sep
    let connected :=
      match findCharFrom commaCh entry (sep + 1) with
      | some sep2 => if atoi (entry.drop (sep2 + 1)) ≠ 0 then true else false
      | none => false
    if name = [] then none else some (name, id, connected)

/-! ## Connecting -/

/-- `PeerConnectionClient::ConnectControlSocket()`.  Modelled from the spec
for the part living outside the provided sources: `rtc::Socket::Connect` is
library code; a connect attempt on an idle (`CS_CLOSED`) socket starts
connecting and succeeds, while a connect attempt on a socket that is already
connecting or connected is rejected with `SOCKET_ERROR` (already in
progress), upon which the source calls `Close()` and returns failure. -/
def ConnectControlSocket (st : Client) : Bool × Client × List Ev :=
  if st.control_sock = SockState.CS_CLOSED then
    (true, { st with control_sock := SockState.CS_CONNECTING }, [Ev.ConnectStart .control])
  else
    (false, Close st, [])

/-- `PeerConnectionClient::DoConnect()`: fresh sockets, queue the sign-in
request, connect the control socket; `SIGNING_IN` on success. -/
def DoConnect (st : Client) : Client × List Ev :=
  let st := { st with control_sock := SockState.CS_CLOSED, hanging_sock := SockState.CS_CLOSED }
  let st := { st with onconnect_data := signInRequest st.client_name }
  let (ret, st, evs) := ConnectControlSocket st
  if ret then ({ st with state := ConnState.SIGNING_IN }, evs)
  else (st, evs ++ [Ev.OnServerConnectionFailure])

/-- `PeerConnectionClient::Connect(server, port, client_name)`.  The
`serverIsUnresolved` input models the external
`SocketAddress::IsUnresolvedIP` test (whether `server` is a hostname rather
than an IP literal). -/
def Connect (st : Client) (server : Str) (port : Int) (clientName : Str)
    (serverIsUnresolved : Bool) : Client × List Ev :=
  if st.state ≠ ConnState.NOT_CONNECTED then (st, [Ev.OnServerConnectionFailure])
  else if server = [] ∨ clientName = [] then (st, [Ev.OnServerConnectionFailure])
  else
    let port := if port ≤ 0 then kDefaultServerPort else port
    let st := { st with server_host := server, server_port := port, client_name := clientName }
    if serverIsUnresolved then ({ st with state := ConnState.RESOLVING, resolver := true }, [])
    else DoConnect st

/-! ## Outbound relay and sign-out -/

/-- `PeerConnectionClient::IsSendingMessage()`. -/
def IsSendingMessage (st : Client) : Bool :=
  st.state = ConnState.CONNECTED && st.control_sock ≠ SockState.CS_CLOSED

/-- `PeerConnectionClient::SendToPeer(peer_id, message)`.  Note that the
pending outbound buffer `onconnect_data_` is assigned unconditionally before
the connect attempt (the `RTC_DCHECK` that the control socket is closed is a
debug-only assertion). -/
def SendToPeer (st : Client) (peerId : Int) (message : Str) : Bool × Client × List Ev :=
  if st.state ≠ ConnState.CONNECTED then (false, st, [])
  else if st.my_id = -1 ∨ peerId = -1 then (false, st, [])
  else
    let st := { st with onconnect_data := messageRequest st.my_id peerId message }
    ConnectControlSocket st

/-- `PeerConnectionClient::SendHangUp(peer_id)`. -/
def SendHangUp (st : Client) (peerId : Int) : Bool × Client × List Ev :=
  SendToPeer st peerId kByeMessage

/-- `PeerConnectionClient::SignOut()`. -/
def SignOut (st : Client) : Bool × Client × List Ev :=
  if st.state = ConnState.NOT_CONNECTED ∨ st.state = ConnState.SIGNING_OUT then (true, st, [])
  else
    let st := { st with hanging_sock := SockState.CS_CLOSED }
    if st.control_sock = SockState.CS_CLOSED then
      let st := { st with state := ConnState.SIGNING_OUT }
      if st.my_id ≠ -1 then
        let st := { st with onconnect_data := signOutRequest st.my_id }
        ConnectControlSocket st
      else (true, st, [])
    else (true, { st with state := ConnState.SIGNING_OUT_WAITING }, [])

/-! ## Connect-completion handlers -/

/-- `PeerConnectionClient::OnConnect`: flush the pending outbound buffer onto
the control socket and clear it. -/
def OnConnect (st : Client) : Client × List Ev :=
  ({ st with control_sock := SockState.CS_CONNECTED, onconnect_data := [] },
   [Ev.Sent .control st.onconnect_data])

/-- `PeerConnectionClient::OnHangingGetConnect`: issue the long-poll wait
request. -/
def OnHangingGetConnect (st : Client) : Client × List Ev :=
  ({ st with hanging_sock := SockState.CS_CONNECTED }, [Ev.Sent .hanging (waitRequest st.my_id)])

/-- `PeerConnectionClient::OnMessageFromPeer`: a body equal to the 3-byte
hang-up token fires the peer-disconnected callback; anything else is
forwarded as an ordinary payload.  (The peer directory is not modified on
either path.) -/
def OnMessageFromPeer (st : Client) (peerId : Int) (message : Str) : Client × List Ev :=
  if message.length = kByeMessage.length ∧ message = kByeMessage then
    (st, [Ev.OnPeerDisconnected peerId])
  else (st, [Ev.OnMessageFromPeer peerId message])

/-! ## The two read handlers -/

/-- The peer-listing loop of `OnRead` (lines 396–418): walk the
newline-delimited body from `pos`, `ParseEntry` each line, and record every
entry whose id is not the freshly assigned self id.  `data.find('\n', pos)`
is `findCharFrom lf data pos`, i.e. the first newline of `data.drop pos`
shifted by `pos`; the match is on that inner search so that the end-of-line
index is manifestly `pos + k`. -/
def processPeerList (data : Str) (myId : Int) (pos : Nat)
    (peers : List (Int × Str)) (evs : List Ev) : List (Int × Str) × List Ev :=
  if _h : pos < data.length then
    match List.findIdx? (fun x => x = lf) (data.drop pos) with
    | none => (peers, evs)
    | some k =>
      let eol := pos + k
      let entry := (data.drop pos).take (eol - pos)
      let (peers', evs') :=
        match ParseEntry entry with
        | some (name, id, _connected) =>
          if id ≠ myId then (peersInsert id name peers, evs ++ [Ev.OnPeerConnected id name])
          else (peers, evs)
        | none => (peers, evs)
      processPeerList data myId (eol + 1) peers' evs'
  else (peers, evs)
termination_by data.length - pos
decreasing_by omega

/-- `PeerConnectionClient::OnRead`: the control-socket read handler. -/
def OnRead (st : Client) (incoming : Str) : Client × List Ev :=
  let (st1, fr, evs0) := ReadIntoBuffer .control st incoming
  if fr.complete then
    let (st2, evs1, parsed) := ParseServerResponse st1 st1.control_data
    let (st3, evs2) :=
      match parsed with
      | some (peerId, eoh) =>
        if st2.my_id = -1 then
          let myId := intOfSizeT peerId
          let st' := { st2 with my_id := myId }
          let (peers, pevs) :=
            if fr.contentLength ≠ 0 then
              processPeerList st'.control_data myId (eoh + 4) st'.peers []
            else (st'.peers, [])
          ({ st' with peers := peers }, pevs ++ [Ev.OnSignedIn])
        else if st2.state = ConnState.SIGNING_OUT then (Close st2, [Ev.OnDisconnected])
        else if st2.state = ConnState.SIGNING_OUT_WAITING then
          let (_, st', evs) := SignOut st2
          (st', evs)
        else (st2, [])
      | none => (st2, [])
    let st4 := { st3 with control_data := [] }
    if st4.state = ConnState.SIGNING_IN then
      ({ st4 with state := ConnState.CONNECTED, hanging_sock := SockState.CS_CONNECTING },
       evs0 ++ evs1 ++ evs2 ++ [Ev.ConnectStart .hanging])
    else (st4, evs0 ++ evs1 ++ evs2)
  else (st1, evs0)

/-- `PeerConnectionClient::OnHangingGetRead`: the long-poll read handler. -/
def OnHangingGetRead (st : Client) (incoming : Str) : Client × List Ev :=
  let (st1, fr, evs0) := ReadIntoBuffer .hanging st incoming
  let (st3, evs2) :=
    if fr.complete then
      let (st2, evs1, parsed) := ParseServerResponse st1 st1.notification_data
      let (stx, evsx) :=
        match parsed with
        | some (peerId, eoh) =>
          let pos := eoh + 4
          if st2.my_id = intOfSizeT peerId then
            match ParseEntry (st2.notification_data.drop pos) with
            | some (name, id, connected) =>
              if connected then
                ({ st2 with peers := peersInsert id name st2.peers },
                 [Ev.OnPeerConnected id name])
              else
                ({ st2 with peers := peersErase id st2.peers },
                 [Ev.OnPeerDisconnected id])
            | none => (st2, [])
          else OnMessageFromPeer st2 (intOfSizeT peerId) (st2.notification_data.drop pos)
        | none => (st2, [])
      ({ stx with notification_data := [] }, evs1 ++ evsx)
    else (st1, [])
  if st3.hanging_sock = SockState.CS_CLOSED ∧ st3.state = ConnState.CONNECTED then
    ({ st3 with hanging_sock := SockState.CS_CONNECTING }, evs0 ++ evs2 ++ [Ev.ConnectStart .hanging])
  else (st3, evs0 ++ evs2)

/-! ## Event classifiers -/

def isDisconnectedEv : Ev → Bool
  | .OnDisconnected => true
  | _ => false

def isRetryEv : Ev → Bool
  | .ScheduleRetry _ => true
  | _ => false

def isMsgFromPeerEv : Ev → Bool
  | .OnMessageFromPeer _ _ => true
  | _ => false

def isPeerDisconnectedEv : Ev → Bool
  | .OnPeerDisconnected _ => true
  | _ => false

/-- Observer events that report peer-list changes or inbound payloads. -/
def isPeerEvent : Ev → Bool
  | .OnPeerConnected _ _ => true
  | .OnPeerDisconnected _ => true
  | .OnMessageFromPeer _ _ => true
  | _ => false

/-! ## Helper lemmas about the framer and parser -/

theorem HttpFrame_complete_findSub {d : Str} (h : (HttpFrame d).complete = true) :
    ∃ i, findSub headerEndPat d = some i := by
  unfold HttpFrame at h
  cases hf : findSub headerEndPat d with
  | none => rw [hf] at h; simp at h
  | some i => exact ⟨i, rfl⟩

theorem ReadIntoBuffer_control_noclose (st : Client) (inc : Str)
    (h : (HttpFrame (st.control_data ++ inc)).connClose = false) :
    ReadIntoBuffer .control st inc =
      ({ st with control_data := st.control_data ++ inc },
       HttpFrame (st.control_data ++ inc), []) := by
  unfold ReadIntoBuffer bufferOf setBuffer
  simp [h]

theorem ReadIntoBuffer_control_close (st : Client) (inc : Str)
    (hcp : (HttpFrame (st.control_data ++ inc)).complete = true)
    (hcc : (HttpFrame (st.control_data ++ inc)).connClose = true) :
    ReadIntoBuffer .control st inc =
      ({ st with control_data := st.control_data ++ inc, control_sock := SockState.CS_CLOSED },
       HttpFrame (st.control_data ++ inc), [Ev.OnMessageSent 0]) := by
  unfold ReadIntoBuffer bufferOf setBuffer OnClose setSock
  simp [hcp, hcc, econnrefused]

theorem ReadIntoBuffer_hanging_noclose (st : Client) (inc : Str)
    (h : (HttpFrame (st.notification_data ++ inc)).connClose = false) :
    ReadIntoBuffer .hanging st inc =
      ({ st with notification_data := st.notification_data ++ inc },
       HttpFrame (st.notification_data ++ inc), []) := by
  unfold ReadIntoBuffer bufferOf setBuffer
  simp [h]

theorem ReadIntoBuffer_hanging_close_connected (st : Client) (inc : Str)
    (hst : st.state = ConnState.CONNECTED)
    (hcp : (HttpFrame (st.notification_data ++ inc)).complete = true)
    (hcc : (HttpFrame (st.notification_data ++ inc)).connClose = true) :
    ReadIntoBuffer .hanging st inc =
      ({ st with notification_data := st.notification_data ++ inc,
                 hanging_sock := SockState.CS_CONNECTING },
       HttpFrame (st.notification_data ++ inc), [Ev.ConnectStart .hanging]) := by
  unfold ReadIntoBuffer bufferOf setBuffer OnClose setSock
  simp [hcp, hcc, hst, econnrefused]

theorem ParseServerResponse_err (st : Client) (resp : Str)
    (hs : GetResponseStatus resp ≠ 200) :
    ParseServerResponse st resp = (Close st, [Ev.OnDisconnected], none) := by
  unfold ParseServerResponse
  simp [hs]

theorem ParseServerResponse_ok (st : Client) (resp : Str) (eoh pid : Nat)
    (hs : GetResponseStatus resp = 200)
    (he : findSub headerEndPat resp = some eoh)
    (hp : GetHeaderValueNat resp eoh pragmaPat = some pid) :
    ParseServerResponse st resp = (st, [], some (pid, eoh)) := by
  unfold ParseServerResponse
  simp [hs, he, hp]

theorem ParseServerResponse_200 (st : Client) (resp : Str) (eoh : Nat)
    (hs : GetResponseStatus resp = 200)
    (he : findSub headerEndPat resp = some eoh) :
    ∃ pid, ParseServerResponse st resp = (st, [], some (pid, eoh)) := by
  unfold ParseServerResponse
  simp [hs, he]

theorem bufferOf_setBuffer (st : Client) (sock : SockId) (b : Str) :
    bufferOf (setBuffer st sock b) sock = b := by
  cases sock <;> rfl

theorem setBuffer_setBuffer (st : Client) (sock : SockId) (b1 b2 : Str) :
    setBuffer (setBuffer st sock b1) sock b2 = setBuffer st sock b2 := by
  cases sock <;> rfl

/-! ## Claim C10 -/

/-- C10: a non-positive `port` argument to `Connect` is replaced by the
compile-time default server port; a positive caller-supplied port is stored
as given. -/
theorem C10_default_port (st : Client) (server : Str) (port : Int) (clientName : Str)
    (unresolved : Bool) (h1 : st.state = ConnState.NOT_CONNECTED)
    (h2 : server ≠ []) (h3 : clientName ≠ []) :
    (Connect st server port clientName unresolved).1.server_port =
      (if port ≤ 0 then kDefaultServerPort else port) := by
  unfold Connect DoConnect ConnectControlSocket
  cases unresolved <;> simp [h1, h2, h3]

def wServer : Str := "s".toList
def wName : Str := "n".toList

theorem C10_witness :
    (initClient.state = ConnState.NOT_CONNECTED ∧ wServer ≠ [] ∧ wName ≠ []) ∧
    (Connect initClient wServer 0 wName false).1.server_port =
      (if (0 : Int) ≤ 0 then kDefaultServerPort else 0) :=
  ⟨⟨rfl, by decide, by decide⟩,
   C10_default_port initClient wServer 0 wName false rfl (by decide) (by decide)⟩

/-! ## Claim C3 -/

def stDirtyBuffers : Client :=
  { initClient with
    state := ConnState.CONNECTED
    my_id := 3
    peers := [(7, "alice".toList)]
    control_data := "x".toList
    notification_data := "y".toList }

/-- C3 counterexample: `Close()` does not clear the two per-socket receive
buffers; from a state with non-empty `control_data_` / `notification_data_`
both survive `Close()` unchanged, refuting the claim that all buffers
(including both receive buffers) are cleared. -/
theorem C3_counterexample :
    (Close stDirtyBuffers).control_data ≠ [] ∧
    (Close stDirtyBuffers).notification_data ≠ [] := by
  decide

/-- C3 (amended): from every state, `Close()` closes both sockets, clears the
pending outbound buffer and the Peer Directory, cancels any in-flight
resolution, resets the self id to the unset sentinel and the state to
Disconnected — but leaves the two per-socket receive buffers untouched. -/
theorem C3_close_resets (st : Client) :
    (Close st).control_sock = SockState.CS_CLOSED ∧
    (Close st).hanging_sock = SockState.CS_CLOSED ∧
    (Close st).onconnect_data = [] ∧
    (Close st).peers = [] ∧
    (Close st).resolver = false ∧
    (Close st).my_id = -1 ∧
    (Close st).state = ConnState.NOT_CONNECTED ∧
    (Close st).control_data = st.control_data ∧
    (Close st).notification_data = st.notification_data :=
  ⟨rfl, rfl, rfl, rfl, rfl, rfl, rfl, rfl, rfl⟩

/-! ## Claim C5 -/

/-- C5: a connect-refused close on the command socket (outside sign-out)
schedules exactly one deferred retry with the fixed 2-second delay, and the
deferred task re-runs the full connect sequence (`DoConnect`); a
connect-refused close on the notify socket schedules no retry and tears the
session down with a single disconnected notification. -/
theorem C5_refused_policy (st : Client) :
    (st.state ≠ ConnState.SIGNING_OUT ∧ st.state ≠ ConnState.SIGNING_OUT_WAITING →
      OnClose st .control econnrefused =
        ({ st with control_sock := SockState.CS_CLOSED }, [Ev.ScheduleRetry kReconnectDelayMs])) ∧
    OnClose st .hanging econnrefused =
      (Close { st with hanging_sock := SockState.CS_CLOSED }, [Ev.OnDisconnected]) ∧
    List.countP isRetryEv (OnClose st .hanging econnrefused).2 = 0 ∧
    kReconnectDelayMs = 2000 ∧
    DoConnect (OnClose st .control econnrefused).1 =
      ({ st with control_sock := SockState.CS_CONNECTING, hanging_sock := SockState.CS_CLOSED, onconnect_data := signInRequest st.client_name, state := ConnState.SIGNING_IN },
       [Ev.ConnectStart .control]) := by
  refine ⟨fun _ => ?_, ?_, ?_, rfl, ?_⟩
  · unfold OnClose setSock
    simp
  · unfold OnClose setSock
    simp
  · unfold OnClose setSock
    simp [isRetryEv]
  · unfold OnClose DoConnect ConnectControlSocket setSock
    simp

def stSigningIn : Client := { initClient with state := ConnState.SIGNING_IN }

theorem C5_witness :
    (stSigningIn.state ≠ ConnState.SIGNING_OUT ∧
     stSigningIn.state ≠ ConnState.SIGNING_OUT_WAITING) ∧
    OnClose stSigningIn .control econnrefused =
      ({ stSigningIn with control_sock := SockState.CS_CLOSED },
       [Ev.ScheduleRetry kReconnectDelayMs]) :=
  ⟨by decide, (C5_refused_policy stSigningIn).1 (by decide)⟩

/-! ## Claim C2 -/

def msgA : Str := "offer-sdp-1".toList
def msgB : Str := "offer-sdp-2".toList

/-- The state right after a first `SendToPeer(7, msgA)` initiated a connect
on the command socket: the request is queued in `onconnect_data_` and the
socket is connecting — a send is in flight (`IsSendingMessage`). -/
def stBusySending : Client :=
  { initClient with
    state := ConnState.CONNECTED
    my_id := 3
    control_sock := SockState.CS_CONNECTING
    hanging_sock := SockState.CS_CONNECTED
    onconnect_data := messageRequest 3 7 msgA }

/-- C2: evaluating `SendToPeer` at the failing input — a second
`SendToPeer(9, msgB)` while the first send is still in flight.  The call does
return failure, but it first overwrites the pending outbound buffer
unconditionally (line 199) and the subsequent failed connect attempt runs
`Close()`, so the first payload's queued bytes are destroyed rather than left
unmodified — contradicting the claim (and the source's own `RTC_DCHECK` that
the control socket is closed on entry). -/
theorem C2_overwrite_bug :
    IsSendingMessage stBusySending = true ∧
    stBusySending.onconnect_data = messageRequest 3 7 msgA ∧
    (SendToPeer stBusySending 9 msgB).1 = false ∧
    (SendToPeer stBusySending 9 msgB).2.1.onconnect_data ≠ stBusySending.onconnect_data := by
  refine ⟨rfl, rfl, rfl, ?_⟩
  decide

/-! ## Claim C9 -/

/-- C9: delivering the bytes of a response in two parts across two read
events (the first part not yet completing a response) produces exactly the
same handler result — final buffer content, framing outcome and side effects
— as delivering all bytes in one read event, and the accumulated buffer is
the concatenation of everything received. -/
theorem C9_split_reassembly (sock : SockId) (st : Client) (s : Str) (k : Nat)
    (hmid : (HttpFrame (bufferOf st sock ++ s.take k)).complete = false) :
    ReadIntoBuffer sock (ReadIntoBuffer sock st (s.take k)).1 (s.drop k) =
      ReadIntoBuffer sock st s ∧
    (ReadIntoBuffer sock (ReadIntoBuffer sock st (s.take k)).1 (s.drop k)).2.1 =
      HttpFrame (bufferOf st sock ++ s) ∧
    bufferOf (ReadIntoBuffer sock (ReadIntoBuffer sock st (s.take k)).1 (s.drop k)).1 sock =
      bufferOf st sock ++ s := by
  have hb2 : bufferOf st sock ++ s.take k ++ s.drop k = bufferOf st sock ++ s := by
    rw [List.append_assoc, List.take_append_drop]
  have h1 : ReadIntoBuffer sock st (s.take k) =
      (setBuffer st sock (bufferOf st sock ++ s.take k),
       HttpFrame (bufferOf st sock ++ s.take k), []) := by
    unfold ReadIntoBuffer
    simp [hmid]
  have h2 : ReadIntoBuffer sock (ReadIntoBuffer sock st (s.take k)).1 (s.drop k) =
      ReadIntoBuffer sock st s := by
    rw [h1]
    show ReadIntoBuffer sock (setBuffer st sock (bufferOf st sock ++ s.take k)) (s.drop k) =
      ReadIntoBuffer sock st s
    simp only [ReadIntoBuffer, bufferOf_setBuffer, setBuffer_setBuffer]
    rw [hb2]
  have h3 : ∀ st' inc, (ReadIntoBuffer sock st' inc).2.1 = HttpFrame (bufferOf st' sock ++ inc) := by
    intro st' inc
    unfold ReadIntoBuffer
    dsimp only
    split <;> rfl
  have h4 : ∀ st' inc, bufferOf (ReadIntoBuffer sock st' inc).1 sock = bufferOf st' sock ++ inc := by
    intro st' inc
    cases sock
    case control =>
      show (ReadIntoBuffer .control st' inc).1.control_data = st'.control_data ++ inc
      unfold ReadIntoBuffer OnClose bufferOf setBuffer setSock
      dsimp only
      split
      · simp [econnrefused]
      · rfl
    case hanging =>
      show (ReadIntoBuffer .hanging st' inc).1.notification_data = st'.notification_data ++ inc
      unfold ReadIntoBuffer OnClose bufferOf setBuffer setSock
      dsimp only
      split
      · simp only [econnrefused]
        norm_num
        split <;> rfl
      · rfl
  exact ⟨h2, by rw [h2, h3], by rw [h2, h4]⟩

def rspC9 : Str := "HTTP/1.0 200 OK\r\nContent-Length: 2\r\n\r\nok".toList

theorem C9_witness :
    (HttpFrame (bufferOf initClient .control ++ rspC9.take 7)).complete = false ∧
    (ReadIntoBuffer .control (ReadIntoBuffer .control initClient (rspC9.take 7)).1 (rspC9.drop 7) =
       ReadIntoBuffer .control initClient rspC9 ∧
     (ReadIntoBuffer .control (ReadIntoBuffer .control initClient (rspC9.take 7)).1 (rspC9.drop 7)).2.1 =
       HttpFrame (bufferOf initClient .control ++ rspC9) ∧
     bufferOf (ReadIntoBuffer .control (ReadIntoBuffer .control initClient (rspC9.take 7)).1 (rspC9.drop 7)).1 .control =
       bufferOf initClient .control ++ rspC9) :=
  ⟨by decide, C9_split_reassembly .control initClient rspC9 7 (by decide)⟩

/-! ## Claim C7 -/

/-- Completing the sign-out exchange: any complete response read on the
command socket while in `SIGNING_OUT` (with an assigned id) produces exactly
one disconnected notification. -/
theorem OnRead_signout_once (s : Client) (inc : Str)
    (hst : s.state = ConnState.SIGNING_OUT) (hid : ¬ s.my_id = -1)
    (hc : (HttpFrame (s.control_data ++ inc)).complete = true) :
    List.countP isDisconnectedEv (OnRead s inc).2 = 1 := by
  by_cases hs : GetResponseStatus (s.control_data ++ inc) = 200
  case pos =>
    obtain ⟨eoh, he⟩ := HttpFrame_complete_findSub hc
    cases hcc : (HttpFrame (s.control_data ++ inc)).connClose
    case false =>
      obtain ⟨pid, hp⟩ := ParseServerResponse_200
        ({ s with control_data := s.control_data ++ inc }) (s.control_data ++ inc) eoh hs he
      unfold OnRead
      rw [ReadIntoBuffer_control_noclose s inc hcc]
      simp only [hc]
      simp only [hp]
      simp [hid, hst, Close, isDisconnectedEv,
        List.countP_append, List.countP_cons, List.countP_nil]
    case true =>
      obtain ⟨pid, hp⟩ := ParseServerResponse_200
        ({ s with control_data := s.control_data ++ inc, control_sock := SockState.CS_CLOSED })
        (s.control_data ++ inc) eoh hs he
      unfold OnRead
      rw [ReadIntoBuffer_control_close s inc hc hcc]
      simp only [hc]
      simp only [hp]
      simp [hid, hst, Close, isDisconnectedEv,
        List.countP_append, List.countP_cons, List.countP_nil]
  case neg =>
    cases hcc : (HttpFrame (s.control_data ++ inc)).connClose
    case false =>
      have hp := ParseServerResponse_err
        ({ s with control_data := s.control_data ++ inc }) (s.control_data ++ inc) hs
      unfold OnRead
      rw [ReadIntoBuffer_control_noclose s inc hcc]
      simp only [hc]
      simp only [hp]
      simp [Close, isDisconnectedEv,
        List.countP_append, List.countP_cons, List.countP_nil]
    case true =>
      have hp := ParseServerResponse_err
        ({ s with control_data := s.control_data ++ inc, control_sock := SockState.CS_CLOSED })
        (s.control_data ++ inc) hs
      unfold OnRead
      rw [ReadIntoBuffer_control_close s inc hc hcc]
      simp only [hc]
      simp only [hp]
      simp [Close, isDisconnectedEv,
        List.countP_append, List.countP_cons, List.countP_nil]

/-- C7: `SignOut` is idempotent.  When already disconnected or already
signing out it returns success immediately with no state change and no
network action.  From a connected state with an idle command socket, the
first call queues and initiates exactly one sign-out request and moves to
`SIGNING_OUT`; a second call in immediate succession is a no-op returning
success; flushing the connection sends the single sign-out request; and the
eventual response produces exactly one disconnected notification. -/
theorem C7_signout_idempotent (st : Client) :
    (st.state = ConnState.NOT_CONNECTED ∨ st.state = ConnState.SIGNING_OUT →
      SignOut st = (true, st, [])) ∧
    (st.state = ConnState.CONNECTED → st.control_sock = SockState.CS_CLOSED →
      ¬ st.my_id = -1 →
      (SignOut st).1 = true ∧
      (SignOut st).2.2 = [Ev.ConnectStart .control] ∧
      (SignOut st).2.1.onconnect_data = signOutRequest st.my_id ∧
      (SignOut st).2.1.state = ConnState.SIGNING_OUT ∧
      SignOut (SignOut st).2.1 = (true, (SignOut st).2.1, []) ∧
      (OnConnect (SignOut st).2.1).2 = [Ev.Sent .control (signOutRequest st.my_id)] ∧
      (∀ inc, (HttpFrame ((OnConnect (SignOut st).2.1).1.control_data ++ inc)).complete = true →
        List.countP isDisconnectedEv (OnRead (OnConnect (SignOut st).2.1).1 inc).2 = 1)) := by
  constructor
  · intro h
    unfold SignOut
    rcases h with h | h <;> simp [h]
  · intro h1 h2 h3
    have hS : SignOut st =
        (true,
         { st with hanging_sock := SockState.CS_CLOSED, state := ConnState.SIGNING_OUT, onconnect_data := signOutRequest st.my_id, control_sock := SockState.CS_CONNECTING },
         [Ev.ConnectStart .control]) := by
      unfold SignOut ConnectControlSocket
      simp [h1, h2, h3]
    refine ⟨by rw [hS], by rw [hS], by rw [hS], by rw [hS], ?_, by rw [hS]; rfl, ?_⟩
    · rw [hS]
      unfold SignOut
      simp
    · intro inc hcm
      rw [hS] at hcm ⊢
      exact OnRead_signout_once _ inc rfl h3 hcm

def stReady : Client :=
  { initClient with
    state := ConnState.CONNECTED
    my_id := 3
    control_sock := SockState.CS_CLOSED
    hanging_sock := SockState.CS_CONNECTED }

def rspOut : Str := "HTTP/1.0 200 OK\r\nPragma: 3\r\nContent-Length: 0\r\n\r\n".toList

theorem C7_witness :
    (stReady.state = ConnState.CONNECTED ∧ stReady.control_sock = SockState.CS_CLOSED ∧
     ¬ stReady.my_id = -1 ∧
     (HttpFrame ((OnConnect (SignOut stReady).2.1).1.control_data ++ rspOut)).complete = true) ∧
    (SignOut stReady).2.2 = [Ev.ConnectStart .control] ∧
    SignOut (SignOut stReady).2.1 = (true, (SignOut stReady).2.1, []) ∧
    List.countP isDisconnectedEv (OnRead (OnConnect (SignOut stReady).2.1).1 rspOut).2 = 1 :=
  ⟨⟨rfl, rfl, by decide, by decide⟩,
   ((C7_signout_idempotent stReady).2 rfl rfl (by decide)).2.1,
   ((C7_signout_idempotent stReady).2 rfl rfl (by decide)).2.2.2.2.1,
   ((C7_signout_idempotent stReady).2 rfl rfl (by decide)).2.2.2.2.2.2 rspOut (by decide)⟩

/-! ## Claim C6 -/

theorem ReadIntoBuffer_hanging_close_other (st : Client) (inc : Str)
    (hst : ¬ st.state = ConnState.CONNECTED)
    (hcp : (HttpFrame (st.notification_data ++ inc)).complete = true)
    (hcc : (HttpFrame (st.notification_data ++ inc)).connClose = true) :
    ReadIntoBuffer .hanging st inc =
      ({ st with notification_data := st.notification_data ++ inc, hanging_sock := SockState.CS_CLOSED },
       HttpFrame (st.notification_data ++ inc), []) := by
  unfold ReadIntoBuffer bufferOf setBuffer OnClose setSock
  simp [hcp, hcc, hst, econnrefused]

/-- C6: a complete response on either socket whose status-line value is not
200 closes both sockets, resets the state to Disconnected, fires the
disconnected observer event exactly once, schedules no retry, and aborts
processing of the response (no peer-list or message-from-peer events are
delivered). -/
theorem C6_non200_teardown (st : Client) (inc : Str) :
    ((HttpFrame (st.control_data ++ inc)).complete = true →
     GetResponseStatus (st.control_data ++ inc) ≠ 200 →
      (OnRead st inc).1.control_sock = SockState.CS_CLOSED ∧
      (OnRead st inc).1.hanging_sock = SockState.CS_CLOSED ∧
      (OnRead st inc).1.state = ConnState.NOT_CONNECTED ∧
      List.countP isDisconnectedEv (OnRead st inc).2 = 1 ∧
      List.countP isRetryEv (OnRead st inc).2 = 0 ∧
      List.countP isPeerEvent (OnRead st inc).2 = 0) ∧
    ((HttpFrame (st.notification_data ++ inc)).complete = true →
     GetResponseStatus (st.notification_data ++ inc) ≠ 200 →
      (OnHangingGetRead st inc).1.control_sock = SockState.CS_CLOSED ∧
      (OnHangingGetRead st inc).1.hanging_sock = SockState.CS_CLOSED ∧
      (OnHangingGetRead st inc).1.state = ConnState.NOT_CONNECTED ∧
      List.countP isDisconnectedEv (OnHangingGetRead st inc).2 = 1 ∧
      List.countP isRetryEv (OnHangingGetRead st inc).2 = 0 ∧
      List.countP isPeerEvent (OnHangingGetRead st inc).2 = 0) := by
  constructor
  · intro hc hs
    cases hcc : (HttpFrame (st.control_data ++ inc)).connClose
    case false =>
      have hp := ParseServerResponse_err
        ({ st with control_data := st.control_data ++ inc }) (st.control_data ++ inc) hs
      unfold OnRead
      rw [ReadIntoBuffer_control_noclose st inc hcc]
      simp only [hc]
      simp only [hp]
      simp [Close, isDisconnectedEv, isRetryEv, isPeerEvent,
        List.countP_append, List.countP_cons, List.countP_nil]
    case true =>
      have hp := ParseServerResponse_err
        ({ st with control_data := st.control_data ++ inc, control_sock := SockState.CS_CLOSED })
        (st.control_data ++ inc) hs
      unfold OnRead
      rw [ReadIntoBuffer_control_close st inc hc hcc]
      simp only [hc]
      simp only [hp]
      simp [Close, isDisconnectedEv, isRetryEv, isPeerEvent,
        List.countP_append, List.countP_cons, List.countP_nil]
  · intro hc hs
    cases hcc : (HttpFrame (st.notification_data ++ inc)).connClose
    case false =>
      have hp := ParseServerResponse_err
        ({ st with notification_data := st.notification_data ++ inc })
        (st.notification_data ++ inc) hs
      unfold OnHangingGetRead
      rw [ReadIntoBuffer_hanging_noclose st inc hcc]
      simp only [hc]
      simp only [hp]
      simp [Close, isDisconnectedEv, isRetryEv, isPeerEvent,
        List.countP_append, List.countP_cons, List.countP_nil]
    case true =>
      by_cases hcn : st.state = ConnState.CONNECTED
      · have hp := ParseServerResponse_err
          ({ st with notification_data := st.notification_data ++ inc, hanging_sock := SockState.CS_CONNECTING })
          (st.notification_data ++ inc) hs
        unfold OnHangingGetRead
        rw [ReadIntoBuffer_hanging_close_connected st inc hcn hc hcc]
        simp only [hc]
        simp only [hp]
        simp [Close, isDisconnectedEv, isRetryEv, isPeerEvent,
          List.countP_append, List.countP_cons, List.countP_nil]
      · have hp := ParseServerResponse_err
          ({ st with notification_data := st.notification_data ++ inc, hanging_sock := SockState.CS_CLOSED })
          (st.notification_data ++ inc) hs
        unfold OnHangingGetRead
        rw [ReadIntoBuffer_hanging_close_other st inc hcn hc hcc]
        simp only [hc]
        simp only [hp]
        simp [Close, isDisconnectedEv, isRetryEv, isPeerEvent,
          List.countP_append, List.countP_cons, List.countP_nil]

def stSteady : Client :=
  { initClient with
    state := ConnState.CONNECTED
    my_id := 3
    control_sock := SockState.CS_CONNECTED
    hanging_sock := SockState.CS_CONNECTED }

def rsp500 : Str := "HTTP/1.0 500 Error\r\nContent-Length: 0\r\n\r\n".toList

theorem C6_witness :
    ((HttpFrame (stSteady.control_data ++ rsp500)).complete = true ∧
     GetResponseStatus (stSteady.control_data ++ rsp500) ≠ 200) ∧
    ((OnRead stSteady rsp500).1.control_sock = SockState.CS_CLOSED ∧
     (OnRead stSteady rsp500).1.hanging_sock = SockState.CS_CLOSED ∧
     (OnRead stSteady rsp500).1.state = ConnState.NOT_CONNECTED ∧
     List.countP isDisconnectedEv (OnRead stSteady rsp500).2 = 1 ∧
     List.countP isRetryEv (OnRead stSteady rsp500).2 = 0 ∧
     List.countP isPeerEvent (OnRead stSteady rsp500).2 = 0) ∧
    ((OnHangingGetRead stSteady rsp500).1.control_sock = SockState.CS_CLOSED ∧
     (OnHangingGetRead stSteady rsp500).1.hanging_sock = SockState.CS_CLOSED ∧
     (OnHangingGetRead stSteady rsp500).1.state = ConnState.NOT_CONNECTED ∧
     List.countP isDisconnectedEv (OnHangingGetRead stSteady rsp500).2 = 1 ∧
     List.countP isRetryEv (OnHangingGetRead stSteady rsp500).2 = 0 ∧
     List.countP isPeerEvent (OnHangingGetRead stSteady rsp500).2 = 0) :=
  ⟨⟨by decide, by decide⟩,
   (C6_non200_teardown stSteady rsp500).1 (by decide) (by decide),
   (C6_non200_teardown stSteady rsp500).2 (by decide) (by decide)⟩

/-! ## Claim C1 -/

def aliceName : Str := "alice".toList

def stTracked : Client :=
  { initClient with
    state := ConnState.CONNECTED
    my_id := 3
    peers := [(5, aliceName)]
    hanging_sock := SockState.CS_CONNECTED }

def rspBye : Str := "HTTP/1.0 200 OK\r\nPragma: 5\r\nContent-Length: 3\r\n\r\nBYE".toList

/-- C1 counterexample: a complete long-poll response from tracked peer 5
(Pragma 5 ≠ self id 3) with body exactly `BYE` fires the peer-disconnected
event, but the peer is NOT removed from the Peer Directory: `peers_` still
maps 5 to its name afterwards, refuting the removal part of the claim. -/
theorem C1_counterexample :
    peersLookup 5 (OnHangingGetRead stTracked rspBye).1.peers = some aliceName ∧
    (OnHangingGetRead stTracked rspBye).2 = [Ev.OnPeerDisconnected 5] := by
  decide

/-- C1 (amended): for every complete long-poll response with status 200 whose
Pragma peer id differs from the self id and whose body is exactly the 3-byte
token `BYE`, the client fires the peer-disconnected observer event exactly
once for that peer and does not deliver the body as an ordinary
message-from-peer payload — but it leaves the Peer Directory unchanged (the
peer is not removed). -/
theorem C1_bye_handling (st : Client) (inc : Str) (eoh pid : Nat)
    (hc : (HttpFrame (st.notification_data ++ inc)).complete = true)
    (hs : GetResponseStatus (st.notification_data ++ inc) = 200)
    (he : findSub headerEndPat (st.notification_data ++ inc) = some eoh)
    (hp : GetHeaderValueNat (st.notification_data ++ inc) eoh pragmaPat = some pid)
    (hne : ¬ st.my_id = intOfSizeT pid)
    (hbody : (st.notification_data ++ inc).drop (eoh + 4) = kByeMessage) :
    (OnHangingGetRead st inc).1.peers = st.peers ∧
    List.countP isPeerDisconnectedEv (OnHangingGetRead st inc).2 = 1 ∧
    List.countP isMsgFromPeerEv (OnHangingGetRead st inc).2 = 0 ∧
    Ev.OnPeerDisconnected (intOfSizeT pid) ∈ (OnHangingGetRead st inc).2 := by
  cases hcc : (HttpFrame (st.notification_data ++ inc)).connClose
  case false =>
    have hpR := ParseServerResponse_ok
      ({ st with notification_data := st.notification_data ++ inc })
      (st.notification_data ++ inc) eoh pid hs he hp
    unfold OnHangingGetRead
    rw [ReadIntoBuffer_hanging_noclose st inc hcc]
    simp only [hc]
    simp only [hpR]
    simp only [hbody]
    unfold OnMessageFromPeer
    simp [hne, isPeerDisconnectedEv, isMsgFromPeerEv,
      List.countP_append, List.countP_cons, List.countP_nil]
    try (split <;> simp [isPeerDisconnectedEv, isMsgFromPeerEv,
      List.countP_append, List.countP_cons, List.countP_nil])
  case true =>
    by_cases hcn : st.state = ConnState.CONNECTED
    · have hpR := ParseServerResponse_ok
        ({ st with notification_data := st.notification_data ++ inc, hanging_sock := SockState.CS_CONNECTING })
        (st.notification_data ++ inc) eoh pid hs he hp
      unfold OnHangingGetRead
      rw [ReadIntoBuffer_hanging_close_connected st inc hcn hc hcc]
      simp only [hc]
      simp only [hpR]
      simp only [hbody]
      unfold OnMessageFromPeer
      simp [hne, isPeerDisconnectedEv, isMsgFromPeerEv,
        List.countP_append, List.countP_cons, List.countP_nil]
    · have hpR := ParseServerResponse_ok
        ({ st with notification_data := st.notification_data ++ inc, hanging_sock := SockState.CS_CLOSED })
        (st.notification_data ++ inc) eoh pid hs he hp
      unfold OnHangingGetRead
      rw [ReadIntoBuffer_hanging_close_other st inc hcn hc hcc]
      simp only [hc]
      simp only [hpR]
      simp only [hbody]
      unfold OnMessageFromPeer
      simp [hne, isPeerDisconnectedEv, isMsgFromPeerEv,
        List.countP_append, List.countP_cons, List.countP_nil]
      try (split <;> simp [isPeerDisconnectedEv, isMsgFromPeerEv,
        List.countP_append, List.countP_cons, List.countP_nil])

theorem C1_witness :
    ((HttpFrame (stTracked.notification_data ++ rspBye)).complete = true ∧
     GetResponseStatus (stTracked.notification_data ++ rspBye) = 200 ∧
     findSub headerEndPat (stTracked.notification_data ++ rspBye) = some 45 ∧
     GetHeaderValueNat (stTracked.notification_data ++ rspBye) 45 pragmaPat = some 5 ∧
     ¬ stTracked.my_id = intOfSizeT 5 ∧
     (stTracked.notification_data ++ rspBye).drop 49 = kByeMessage) ∧
    ((OnHangingGetRead stTracked rspBye).1.peers = stTracked.peers ∧
     List.countP isPeerDisconnectedEv (OnHangingGetRead stTracked rspBye).2 = 1 ∧
     List.countP isMsgFromPeerEv (OnHangingGetRead stTracked rspBye).2 = 0 ∧
     Ev.OnPeerDisconnected (intOfSizeT 5) ∈ (OnHangingGetRead stTracked rspBye).2) :=
  ⟨⟨by decide, by decide, by decide, by decide, by decide, by decide⟩,
   C1_bye_handling stTracked rspBye 45 5 (by decide) (by decide) (by decide)
     (by decide) (by decide) (by decide)⟩

/-! ## Claim C8 -/

def rspNegCL : Str := "HTTP/1.0 200 OK\r\nContent-Length: -1\r\n\r\n".toList

/-- C8 counterexample: with a header `Content-Length: -1` the extracted
`size_t` length is `2^64 - 1`, the `size_t` sum `header_end + 4 +
content_length` wraps around, and the framer reports the response COMPLETE
even though `header_end + 4 + content_length ≤ buffer_length` (the claim's
completeness condition, over the integers) is false. -/
theorem C8_counterexample :
    (HttpFrame rspNegCL).complete = true ∧
    findSub headerEndPat rspNegCL = some 35 ∧
    GetHeaderValueNat rspNegCL 35 contentLengthPat = some (sizeTMod - 1) ∧
    rspNegCL.length < 35 + 4 + (sizeTMod - 1) := by
  refine ⟨by decide, by decide, by decide, ?_⟩
  have h : rspNegCL.length = 39 := by decide
  rw [h]
  norm_num [sizeTMod]

/-- C8 (amended): the framer reports a response complete exactly when the
buffer contains the header terminator, a `Content-Length` header extractable
before it, and `(header_end + 4 + content_length) % 2^64 ≤ buffer_length` —
the sum being computed in `size_t` arithmetic (for non-negative in-range
lengths this is the claim's `header_end + 4 + content_length ≤
buffer_length`).  Until a response is complete no buffered bytes are dropped:
an incomplete read leaves the receive buffer equal to the old buffer plus
every byte received. -/
theorem C8_framing :
    (∀ data : Str, (HttpFrame data).complete = true ↔
      ∃ i cl, findSub headerEndPat data = some i ∧
        GetHeaderValueNat data i contentLengthPat = some cl ∧
        (i + 4 + cl) % sizeTMod ≤ data.length) ∧
    (∀ st inc, (HttpFrame (st.control_data ++ inc)).complete = false →
      (OnRead st inc).1.control_data = st.control_data ++ inc) ∧
    (∀ st inc, (HttpFrame (st.notification_data ++ inc)).complete = false →
      (OnHangingGetRead st inc).1.notification_data = st.notification_data ++ inc) := by
  refine ⟨fun data => ⟨?_, ?_⟩, ?_, ?_⟩
  · intro h
    unfold HttpFrame at h
    split at h
    · simp at h
    · rename_i i hf
      split at h
      · simp at h
      · rename_i cl hg
        split at h
        · rename_i hle
          exact ⟨i, cl, hf, hg, hle⟩
        · simp at h
  · rintro ⟨i, cl, hf, hg, hle⟩
    unfold HttpFrame
    simp only [hf, hg]
    simp [hle]
  · intro st inc h
    have h1 : ReadIntoBuffer .control st inc =
        ({ st with control_data := st.control_data ++ inc },
         HttpFrame (st.control_data ++ inc), []) := by
      unfold ReadIntoBuffer bufferOf setBuffer
      simp [h]
    unfold OnRead
    rw [h1]
    simp [h]
  · intro st inc h
    have h1 : ReadIntoBuffer .hanging st inc =
        ({ st with notification_data := st.notification_data ++ inc },
         HttpFrame (st.notification_data ++ inc), []) := by
      unfold ReadIntoBuffer bufferOf setBuffer
      simp [h]
    unfold OnHangingGetRead
    rw [h1]
    simp only [h]
    simp
    split <;> simp

def partialRsp : Str := "HTTP/1.0 200 OK\r\nContent-Le".toList

theorem C8_witness :
    ((HttpFrame (initClient.control_data ++ partialRsp)).complete = false ∧
     (HttpFrame (initClient.notification_data ++ partialRsp)).complete = false) ∧
    (OnRead initClient partialRsp).1.control_data =
      initClient.control_data ++ partialRsp ∧
    (OnHangingGetRead initClient partialRsp).1.notification_data =
      initClient.notification_data ++ partialRsp :=
  ⟨⟨by decide, by decide⟩,
   C8_framing.2.1 initClient partialRsp (by decide),
   C8_framing.2.2 initClient partialRsp (by decide)⟩

/-! ## Claim C4: abstract peer-listing entries and their rendering

A sign-in body is a sequence of lines `name,id,connected\n`.  An abstract
entry is `(name, digits-of-id, connected)`; `renderPeerList` produces the
body exactly as the server writes it, and `expectedPeers` / `expectedEvs`
state what the claim demands: exactly the entries whose parsed id differs
from the self id, each inserted and reported once, in order. -/

def wfEntry (e : Str × Str × Bool) : Prop :=
  e.1 ≠ [] ∧ commaCh ∉ e.1 ∧ lf ∉ e.1 ∧ e.2.1 ≠ [] ∧ ∀ c ∈ e.2.1, c.isDigit = true

instance (e : Str × Str × Bool) : Decidable (wfEntry e) := by
  unfold wfEntry
  infer_instance

/-- The id a body entry denotes: the decimal value of its digit string. -/
def entryId (e : Str × Str × Bool) : Int := (atoiLoop e.2.1 0 : Int)

/-- `name,id,connected` (without the trailing newline). -/
def entryLine (e : Str × Str × Bool) : Str :=
  e.1 ++ (commaCh :: (e.2.1 ++ (commaCh :: [if e.2.2 then '1' else '0'])))

def renderEntry (e : Str × Str × Bool) : Str := entryLine e ++ [lf]

def renderPeerList : List (Str × Str × Bool) → Str
  | [] => []
  | e :: rest => renderEntry e ++ renderPeerList rest

/-- The directory the claim expects: the entries with id ≠ self, in order. -/
def expectedPeers (myId : Int) : List (Str × Str × Bool) → List (Int × Str)
  | [] => []
  | e :: rest =>
    if entryId e ≠ myId then (entryId e, e.1) :: expectedPeers myId rest
    else expectedPeers myId rest

/-- The peer-connected events the claim expects: one per kept entry. -/
def expectedEvs (myId : Int) : List (Str × Str × Bool) → List Ev
  | [] => []
  | e :: rest =>
    if entryId e ≠ myId then Ev.OnPeerConnected (entryId e) e.1 :: expectedEvs myId rest
    else expectedEvs myId rest

/-! ### Character facts -/

theorem digit_ne_char {c d : Char} (h : c.isDigit = true) (hd : d.isDigit = false) :
    ¬ c = d := by
  intro hh
  rw [hh, hd] at h
  exact Bool.noConfusion h

theorem digit_not_spaceC {c : Char} (h : c.isDigit = true) : isSpaceC c = false := by
  have h1 := digit_ne_char h (show (' ' : Char).isDigit = false by decide)
  have h2 := digit_ne_char h (show ('\t' : Char).isDigit = false by decide)
  have h3 := digit_ne_char h (show ('\n' : Char).isDigit = false by decide)
  have h4 := digit_ne_char h (show ('\x0b' : Char).isDigit = false by decide)
  have h5 := digit_ne_char h (show ('\x0c' : Char).isDigit = false by decide)
  have h6 := digit_ne_char h (show ('\r' : Char).isDigit = false by decide)
  simp [isSpaceC, h1, h2, h3, h4, h5, h6]

/-! ### `findIdx?`, `atoiLoop`, `atoi` on structured input -/

theorem findIdx_shift (p : Char → Bool) (l : Str) (i : Nat) :
    List.findIdx? p l i = (List.findIdx? p l 0).map (i + ·) := by
  induction l generalizing i with
  | nil => rfl
  | cons x xs ih =>
    by_cases hx : p x
    · simp [List.findIdx?_cons, hx]
    · rw [List.findIdx?_cons, List.findIdx?_cons, if_neg hx, if_neg hx, ih (i + 1), ih 1]
      cases List.findIdx? p xs 0 <;> simp <;> omega

theorem findIdx_char_append (c : Char) (a b : Str) (h : c ∉ a) :
    List.findIdx? (fun x => x = c) (a ++ b) =
      (List.findIdx? (fun x => x = c) b).map (a.length + ·) := by
  induction a with
  | nil => cases hf : List.findIdx? (fun x => x = c) b <;> simp [hf]
  | cons x xs ih =>
    have hx : ¬ x = c := fun hh => h (by simp [hh])
    rw [List.cons_append, List.findIdx?_cons, if_neg (by simp [hx]),
      findIdx_shift, ih (fun hm => h (List.mem_cons_of_mem _ hm))]
    cases List.findIdx? (fun x => x = c) b <;> simp <;> omega

theorem atoiLoop_append (ds rest : Str) (acc : Nat) (h : ∀ c ∈ ds, c.isDigit = true) :
    atoiLoop (ds ++ rest) acc = atoiLoop rest (atoiLoop ds acc) := by
  induction ds generalizing acc with
  | nil => rfl
  | cons d ds ih =>
    have hd := h d (List.mem_cons_self _ _)
    simp only [List.cons_append, atoiLoop, hd, if_true]
    exact ih _ (fun c hc => h c (List.mem_cons_of_mem _ hc))

theorem atoiLoop_stop (c : Char) (r : Str) (acc : Nat) (h : c.isDigit = false) :
    atoiLoop (c :: r) acc = acc := by
  simp [atoiLoop, h]

theorem skipWs_digit (d : Char) (r : Str) (h : d.isDigit = true) :
    skipWs (d :: r) = d :: r := by
  simp [skipWs, digit_not_spaceC h]

/-- `atoi` on a digit string followed by a non-digit suffix yields the value
of the digits. -/
theorem atoi_digits (ds rest : Str) (hne : ds ≠ [])
    (hd : ∀ c ∈ ds, c.isDigit = true)
    (hstop : ∀ c r', rest = c :: r' → c.isDigit = false) :
    atoi (ds ++ rest) = (atoiLoop ds 0 : Int) := by
  cases ds with
  | nil => exact absurd rfl hne
  | cons d ds' =>
    have hdd := hd d (List.mem_cons_self _ _)
    unfold atoi
    rw [List.cons_append, skipWs_digit d (ds' ++ rest) hdd]
    simp only
    rw [if_neg (digit_ne_char hdd (show ('-' : Char).isDigit = false by decide))]
    rw [if_neg (digit_ne_char hdd (show ('+' : Char).isDigit = false by decide))]
    rw [show d :: (ds' ++ rest) = (d :: ds') ++ rest from rfl]
    rw [atoiLoop_append _ _ _ hd]
    cases rest with
    | nil => rfl
    | cons c r' => rw [atoiLoop_stop c r' _ (hstop c r' rfl)]

theorem drop_append_cons (a : Str) (c : Char) (b : Str) :
    (a ++ c :: b).drop (a.length + 1) = b := by
  have h : a ++ c :: b = (a ++ [c]) ++ b := by simp
  have h2 : a.length + 1 = (a ++ [c]).length := by simp
  rw [h, h2, List.drop_left]

/-- `ParseEntry` recovers the components of a well-formed rendered line. -/
theorem ParseEntry_entryLine (name ds : Str) (conn : Bool)
    (hn : name ≠ []) (hcm : commaCh ∉ name) (hds : ds ≠ [])
    (hd : ∀ c ∈ ds, c.isDigit = true) :
    ParseEntry (entryLine (name, ds, conn)) = some (name, (atoiLoop ds 0 : Int), conn) := by
  have hcds : commaCh ∉ ds := fun hm => absurd (hd _ hm) (by decide)
  have hfind : findChar commaCh (entryLine (name, ds, conn)) = some name.length := by
    unfold findChar entryLine
    rw [findIdx_char_append commaCh name _ hcm, List.findIdx?_cons, if_pos (by simp)]
    simp
  have hdrop1 : (entryLine (name, ds, conn)).drop (name.length + 1) =
      ds ++ (commaCh :: [if conn then '1' else '0']) := by
    unfold entryLine
    exact drop_append_cons name commaCh _
  have hid : atoi (ds ++ (commaCh :: [if conn then '1' else '0'])) = (atoiLoop ds 0 : Int) := by
    refine atoi_digits ds _ hds hd ?_
    intro c r' hcr
    injection hcr with h1 _
    rw [← h1]
    decide
  have hfind2 : findCharFrom commaCh (entryLine (name, ds, conn)) (name.length + 1) =
      some (name.length + 1 + ds.length) := by
    unfold findCharFrom
    rw [hdrop1, findIdx_char_append commaCh ds _ hcds, List.findIdx?_cons, if_pos (by simp)]
    simp
  have hdrop2 : (entryLine (name, ds, conn)).drop (name.length + 1 + ds.length + 1) =
      [if conn then '1' else '0'] := by
    rw [show name.length + 1 + ds.length + 1 = (name.length + 1) + (ds.length + 1) from by omega,
      ← List.drop_drop, hdrop1, drop_append_cons ds commaCh _]
  have htake : (entryLine (name, ds, conn)).take name.length = name := by
    unfold entryLine
    exact List.take_left name _
  have hconn : (if atoi [if conn then '1' else '0'] ≠ 0 then true else false) = conn := by
    cases conn <;> decide
  unfold ParseEntry
  rw [hfind]
  simp only [hdrop1, hid, hfind2, hdrop2, hconn, htake]
  rw [if_neg hn]

/-! ### Directory and search auxiliaries for the sign-in proof -/

theorem peersInsert_of_lookup_none (id : Int) (name : Str) (peers : List (Int × Str))
    (h : peersLookup id peers = none) :
    peersInsert id name peers = peers ++ [(id, name)] := by
  induction peers with
  | nil => rfl
  | cons kv rest ih =>
    obtain ⟨k, v⟩ := kv
    unfold peersLookup at h
    by_cases hk : k = id
    · rw [if_pos hk] at h
      exact absurd h (by simp)
    · rw [if_neg hk] at h
      simp [peersInsert, hk, ih h]

theorem peersLookup_append_single (id id' : Int) (name' : Str) (peers : List (Int × Str))
    (h : peersLookup id peers = none) (hne : ¬ id' = id) :
    peersLookup id (peers ++ [(id', name')]) = none := by
  induction peers with
  | nil => simp [peersLookup, hne]
  | cons kv rest ih =>
    obtain ⟨k, v⟩ := kv
    unfold peersLookup at h
    by_cases hk : k = id
    · rw [if_pos hk] at h
      exact absurd h (by simp)
    · rw [if_neg hk] at h
      rw [List.cons_append]
      unfold peersLookup
      rw [if_neg hk]
      exact ih h

theorem findSub_bound (pat s : Str) (i : Nat) (h : findSub pat s = some i) :
    i + pat.length ≤ s.length := by
  induction s generalizing i with
  | nil =>
    unfold findSub at h
    by_cases hp : pat = []
    · rw [if_pos hp] at h
      simp at h
      simp [← h, hp]
    · rw [if_neg hp] at h
      exact absurd h (by simp)
  | cons c rest ih =>
    unfold findSub at h
    by_cases hp : pat.isPrefixOf (c :: rest)
    · rw [if_pos hp] at h
      have hi : 0 = i := by simpa using h
      subst hi
      have hle := List.IsPrefix.length_le (List.isPrefixOf_iff_prefix.mp hp)
      simpa using hle
    · rw [if_neg hp] at h
      cases hf : findSub pat rest with
      | none => rw [hf] at h; simp at h
      | some j =>
        rw [hf] at h
        simp at h
        have := ih j hf
        simp only [List.length_cons]
        omega

theorem intOfSizeT_small (n : Nat) (h : n < 2 ^ 31) : intOfSizeT n = (n : Int) := by
  simp only [intOfSizeT]
  split <;> omega

theorem lf_not_in_entryLine (e : Str × Str × Bool) (hwf : wfEntry e) :
    lf ∉ entryLine e := by
  obtain ⟨name, ds, conn⟩ := e
  obtain ⟨hn, hcm, hlfn, hds, hd⟩ := hwf
  intro hmem
  unfold entryLine at hmem
  rcases List.mem_append.mp hmem with h | h
  · exact hlfn h
  · rcases List.mem_cons.mp h with h | h
    · exact absurd h (by decide)
    · rcases List.mem_append.mp h with h | h
      · exact absurd (hd _ h) (by decide)
      · rcases List.mem_cons.mp h with h | h
        · exact absurd h (by decide)
        · have hcc := List.mem_singleton.mp h
          revert hcc
          cases conn <;> dsimp only <;> decide

/-! ### Step equations for the peer-listing loop -/

theorem processPeerList_stop (data : Str) (myId : Int) (pos : Nat)
    (peers : List (Int × Str)) (evs : List Ev) (h : ¬ pos < data.length) :
    processPeerList data myId pos peers evs = (peers, evs) := by
  rw [processPeerList.eq_def, dif_neg h]

theorem processPeerList_some (data : Str) (myId : Int) (pos : Nat)
    (peers : List (Int × Str)) (evs : List Ev) (k : Nat) (h : pos < data.length)
    (hf : List.findIdx? (fun x => x = lf) (data.drop pos) = some k) :
    processPeerList data myId pos peers evs =
      (match ParseEntry ((data.drop pos).take k) with
       | some (name, id, _) =>
         if id ≠ myId then
           processPeerList data myId (pos + k + 1) (peersInsert id name peers)
             (evs ++ [Ev.OnPeerConnected id name])
         else processPeerList data myId (pos + k + 1) peers evs
       | none => processPeerList data myId (pos + k + 1) peers evs) := by
  conv_lhs => rw [processPeerList.eq_def]
  rw [dif_pos h, hf]
  have hk : pos + k - pos = k := by omega
  simp only [hk]
  cases hP : ParseEntry ((data.drop pos).take k) with
  | none => simp
  | some t =>
    obtain ⟨name, id, cflag⟩ := t
    by_cases hi : id ≠ myId
    · simp [hi]
    · simp [hi]

/-! ### The body loop on a rendered listing -/

theorem processPeerList_render (myId : Int) (es : List (Str × Str × Bool)) :
    ∀ (pre : Str) (peers : List (Int × Str)) (evs : List Ev),
    (∀ e ∈ es, wfEntry e) →
    (∀ e ∈ es, peersLookup (entryId e) peers = none) →
    List.Pairwise (fun a b => entryId a ≠ entryId b) es →
    processPeerList (pre ++ renderPeerList es) myId pre.length peers evs =
      (peers ++ expectedPeers myId es, evs ++ expectedEvs myId es) := by
  induction es with
  | nil =>
    intro pre peers evs _ _ _
    rw [show pre ++ renderPeerList [] = pre from by simp [renderPeerList]]
    rw [processPeerList_stop _ _ _ _ _ (by omega)]
    simp [expectedPeers, expectedEvs]
  | cons e rest ih =>
    intro pre peers evs hwf hlook hpair
    obtain ⟨name, ds, conn⟩ := e
    have hwfe := hwf _ (List.mem_cons_self _ _)
    have hlfL := lf_not_in_entryLine _ hwfe
    obtain ⟨hn, hcm, hlfn, hds, hd⟩ := hwfe
    have hdata : pre ++ renderPeerList ((name, ds, conn) :: rest) =
        pre ++ (entryLine (name, ds, conn) ++ (lf :: renderPeerList rest)) := by
      simp [renderPeerList, renderEntry]
    rw [hdata]
    have hdrop : (pre ++ (entryLine (name, ds, conn) ++ (lf :: renderPeerList rest))).drop
        pre.length = entryLine (name, ds, conn) ++ (lf :: renderPeerList rest) :=
      List.drop_left pre _
    have hlt : pre.length <
        (pre ++ (entryLine (name, ds, conn) ++ (lf :: renderPeerList rest))).length := by
      simp only [List.length_append, List.length_cons]
      omega
    have hfIdx : List.findIdx? (fun x => x = lf)
        ((pre ++ (entryLine (name, ds, conn) ++ (lf :: renderPeerList rest))).drop pre.length) =
        some (entryLine (name, ds, conn)).length := by
      rw [hdrop, findIdx_char_append lf _ _ hlfL, List.findIdx?_cons, if_pos (by simp)]
      simp
    rw [processPeerList_some _ _ _ _ _ _ hlt hfIdx]
    have htake : ((pre ++ (entryLine (name, ds, conn) ++ (lf :: renderPeerList rest))).drop
        pre.length).take (entryLine (name, ds, conn)).length = entryLine (name, ds, conn) := by
      rw [hdrop]
      exact List.take_left _ _
    rw [htake, ParseEntry_entryLine name ds conn hn hcm hds hd]
    dsimp only
    have hpos : pre.length + (entryLine (name, ds, conn)).length + 1 =
        (pre ++ renderEntry (name, ds, conn)).length := by
      simp only [renderEntry, List.length_append, List.length_cons, List.length_nil]
      omega
    have hdata2 : pre ++ (entryLine (name, ds, conn) ++ (lf :: renderPeerList rest)) =
        (pre ++ renderEntry (name, ds, conn)) ++ renderPeerList rest := by
      simp [renderEntry]
    have hid : (atoiLoop ds 0 : Int) = entryId (name, ds, conn) := rfl
    have hwf' : ∀ e' ∈ rest, wfEntry e' := fun e' he' => hwf e' (List.mem_cons_of_mem _ he')
    have hpair' := (List.pairwise_cons.mp hpair).2
    have hheads := (List.pairwise_cons.mp hpair).1
    by_cases hi : (atoiLoop ds 0 : Int) ≠ myId
    · rw [if_pos hi]
      rw [peersInsert_of_lookup_none _ _ _ (hid ▸ hlook _ (List.mem_cons_self _ _))]
      rw [hpos, hdata2]
      rw [ih (pre ++ renderEntry (name, ds, conn)) _ _ hwf'
        (fun e' he' => peersLookup_append_single _ _ _ _ (hlook e' (List.mem_cons_of_mem _ he'))
          (hid ▸ hheads e' he'))
        hpair']
      simp [expectedPeers, expectedEvs, entryId, hi]
    · rw [if_neg hi, hpos, hdata2]
      rw [ih (pre ++ renderEntry (name, ds, conn)) _ _ hwf'
        (fun e' he' => hlook e' (List.mem_cons_of_mem _ he')) hpair']
      have hieq : entryId (name, ds, conn) = myId := by
        by_contra hcon
        exact hi (by simpa [entryId] using hcon)
      simp [expectedPeers, expectedEvs, hieq]

/-- C4: processing a valid (status 200) sign-in response while the self id is
unset stores the Pragma value as the self id, and fills the Peer Directory
with exactly the newline-delimited body entries whose id differs from the
self id, firing one peer-connected event per such entry (followed by the
signed-in notification and the long-poll connect). -/
theorem C4_sign_in (st : Client) (inc : Str) (eoh pid : Nat)
    (es : List (Str × Str × Bool))
    (hmy : st.my_id = -1) (hst : st.state = ConnState.SIGNING_IN) (hpeers : st.peers = [])
    (hfr : HttpFrame (st.control_data ++ inc) =
      ⟨true, (renderPeerList es).length, false⟩)
    (hs : GetResponseStatus (st.control_data ++ inc) = 200)
    (he : findSub headerEndPat (st.control_data ++ inc) = some eoh)
    (hp : GetHeaderValueNat (st.control_data ++ inc) eoh pragmaPat = some pid)
    (hpid : pid < 2 ^ 31)
    (hbody : (st.control_data ++ inc).drop (eoh + 4) = renderPeerList es)
    (hwf : ∀ e ∈ es, wfEntry e)
    (hdist : List.Pairwise (fun a b => entryId a ≠ entryId b) es) :
    OnRead st inc =
      ({ st with control_data := [], my_id := (pid : Int), peers := expectedPeers (pid : Int) es, state := ConnState.CONNECTED, hanging_sock := SockState.CS_CONNECTING },
       expectedEvs (pid : Int) es ++ [Ev.OnSignedIn, Ev.ConnectStart .hanging]) := by
  have hcc : (HttpFrame (st.control_data ++ inc)).connClose = false := by rw [hfr]
  have hcp : (HttpFrame (st.control_data ++ inc)).complete = true := by rw [hfr]
  have hsmall := intOfSizeT_small pid hpid
  have hpR := ParseServerResponse_ok ({ st with control_data := st.control_data ++ inc })
    (st.control_data ++ inc) eoh pid hs he hp
  have hloop : processPeerList (st.control_data ++ inc) ((pid : Int)) (eoh + 4) [] [] =
      (expectedPeers (pid : Int) es, expectedEvs (pid : Int) es) := by
    have hb := findSub_bound _ _ _ he
    have hpl : headerEndPat.length = 4 := by decide
    have hsplit : st.control_data ++ inc =
        (st.control_data ++ inc).take (eoh + 4) ++ renderPeerList es := by
      conv_lhs => rw [← List.take_append_drop (eoh + 4) (st.control_data ++ inc)]
      rw [hbody]
    have hlenpre : ((st.control_data ++ inc).take (eoh + 4)).length = eoh + 4 := by
      rw [List.length_take]
      omega
    calc processPeerList (st.control_data ++ inc) ((pid : Int)) (eoh + 4) [] []
        = processPeerList ((st.control_data ++ inc).take (eoh + 4) ++ renderPeerList es)
            ((pid : Int)) (((st.control_data ++ inc).take (eoh + 4)).length) [] [] := by
          rw [← hsplit, hlenpre]
      _ = ([] ++ expectedPeers (pid : Int) es, [] ++ expectedEvs (pid : Int) es) :=
          processPeerList_render _ es _ [] [] hwf (fun e _ => rfl) hdist
      _ = (expectedPeers (pid : Int) es, expectedEvs (pid : Int) es) := by simp
  unfold OnRead
  rw [ReadIntoBuffer_control_noclose st inc hcc]
  simp only [hcp]
  simp only [hpR]
  simp only [hfr, hsmall, hmy, hpeers]
  by_cases hes : (renderPeerList es).length = 0
  · have hesnil : es = [] := by
      cases es with
      | nil => rfl
      | cons e rest =>
        exfalso
        simp [renderPeerList, renderEntry] at hes
    subst hesnil
    simp [expectedPeers, expectedEvs, hes, hst, hpeers]
  · simp [hes, hloop, hst, hpeers]

def stFresh : Client :=
  { initClient with
    state := ConnState.SIGNING_IN
    control_sock := SockState.CS_CONNECTED }

def rspSignIn : Str :=
  "HTTP/1.0 200 OK\r\nPragma: 3\r\nContent-Length: 18\r\n\r\nalice,7,1\nbob,8,1\n".toList

def esSignIn : List (Str × Str × Bool) :=
  [("alice".toList, "7".toList, true), ("bob".toList, "8".toList, true)]

theorem C4_witness :
    (stFresh.my_id = -1 ∧ stFresh.state = ConnState.SIGNING_IN ∧ stFresh.peers = [] ∧
     HttpFrame (stFresh.control_data ++ rspSignIn) =
       ⟨true, (renderPeerList esSignIn).length, false⟩ ∧
     GetResponseStatus (stFresh.control_data ++ rspSignIn) = 200 ∧
     findSub headerEndPat (stFresh.control_data ++ rspSignIn) = some 46 ∧
     GetHeaderValueNat (stFresh.control_data ++ rspSignIn) 46 pragmaPat = some 3 ∧
     (stFresh.control_data ++ rspSignIn).drop 50 = renderPeerList esSignIn ∧
     (∀ e ∈ esSignIn, wfEntry e) ∧
     List.Pairwise (fun a b => entryId a ≠ entryId b) esSignIn) ∧
    OnRead stFresh rspSignIn =
      ({ stFresh with control_data := [], my_id := ((3 : Nat) : Int), peers := expectedPeers ((3 : Nat) : Int) esSignIn, state := ConnState.CONNECTED, hanging_sock := SockState.CS_CONNECTING },
       expectedEvs ((3 : Nat) : Int) esSignIn ++ [Ev.OnSignedIn, Ev.ConnectStart .hanging]) :=
  ⟨⟨rfl, rfl, rfl, by decide, by decide, by decide, by decide, by decide, by decide, by decide⟩,
   C4_sign_in stFresh rspSignIn 46 3 esSignIn rfl rfl rfl (by decide) (by decide) (by decide)
     (by decide) (by decide) (by decide) (by decide) (by decide)⟩

end PCC
